import Mathlib

/-!
Verification development for the EtherGuard-VPN core dataplane.

This file shallowly embeds the packet-obfuscation layer
(obfuscation/zerooverhead.go) and the pseudo-TCP transport
(faketcp/socket.go, faketcp/packet.go, faketcp/stack.go) in Lean 4 and
proves the testable properties of the specification against the
embedding.

Conventions of the embedding:
- Go byte slices become `List Nat`; every byte of a real packet is < 256,
  but the embedding is total on all of `List Nat`.
- Go `int` arithmetic that can go negative (packet headroom) uses `Int`;
  the 32-bit sequence counters use `Nat` with explicit `% 2^32`.
- The cryptographic primitives (AES block cipher, XChaCha20-Poly1305)
  live in external libraries; they are abstracted as a `Crypto` record,
  and the contracts the Go standard-library API guarantees (16-byte block
  output, tag overhead, seal/open round trip) are explicit predicates.
- Randomness (math/rand, crypto/rand) is abstracted as a `Rand` oracle:
  `padChoice` models the result of rand.Intn, `padByte`/`nonceByte`
  model crypto/rand.Read output streams.
- Fallible Go functions returning (value, error) become `Except String`.
-/

namespace Obfuscation

/-- Control message kinds of the EtherGuard protocol (zerooverhead.go). -/
def MessageTypeRegister : Nat := 1

def MessageTypeServerUpdate : Nat := 2

def MessageTypePing : Nat := 3

def MessageTypePong : Nat := 4

def MessageTypeQueryPeer : Nat := 5

def MessageTypeBroadcastPeer : Nat := 6

/-- AES block size in bytes (crypto/aes BlockSize). -/
def aesBlockSize : Nat := 16

/-- XChaCha20-Poly1305 tag overhead (chacha20poly1305.Overhead). -/
def chachaOverhead : Nat := 16

/-- XChaCha20-Poly1305 extended nonce size (chacha20poly1305.NonceSizeX). -/
def chachaNonceSizeX : Nat := 24

/-- The switch in Encrypt/Decrypt deciding whether a first byte names a
control-plane message kind. -/
def isControlPacket (messageType : Nat) : Bool :=
  messageType == MessageTypeRegister ||
  messageType == MessageTypeServerUpdate ||
  messageType == MessageTypePing ||
  messageType == MessageTypePong ||
  messageType == MessageTypeQueryPeer ||
  messageType == MessageTypeBroadcastPeer

/-- Abstraction of the two external cryptographic primitives held by the
handler: the AES block cipher (cipher.Block) and the XChaCha20-Poly1305
AEAD (cipher.AEAD). `aeadSeal nonce pt` returns ciphertext including the tag;
`aeadOpen nonce ct` returns the recovered plaintext or fails. -/
structure Crypto where
  encBlock : List Nat → List Nat
  decBlock : List Nat → List Nat
  aeadSeal : List Nat → List Nat → List Nat
  aeadOpen : List Nat → List Nat → Option (List Nat)

/-- The Go cipher.Block API writes exactly one 16-byte block. -/
def BlockLen (c : Crypto) : Prop :=
  ∀ b : List Nat, b.length = 16 → (c.encBlock b).length = 16

/-- Decrypting an encrypted block recovers it (AES is a permutation). -/
def BlockRoundtrip (c : Crypto) : Prop :=
  ∀ b : List Nat, b.length = 16 → c.decBlock (c.encBlock b) = b

/-- Seal appends exactly chacha20poly1305.Overhead = 16 bytes of tag. -/
def SealLen (c : Crypto) : Prop :=
  ∀ n pt : List Nat, (c.aeadSeal n pt).length = pt.length + chachaOverhead

/-- Opening a sealed message under the same nonce recovers it. -/
def AeadRoundtrip (c : Crypto) : Prop :=
  ∀ n pt : List Nat, c.aeadOpen n (c.aeadSeal n pt) = some pt

/-- Randomness oracle: padChoice models the value drawn by rand.Intn,
padByte and nonceByte model the two crypto/rand.Read calls. -/
structure Rand where
  padChoice : Nat
  padByte : Nat → Nat
  nonceByte : Nat → Nat

/-- The immutable handler state (struct ZeroOverheadHandler). The two
cipher objects are passed separately as a `Crypto` value. -/
structure ZeroOverheadHandler where
  maxPacketSize : Int
  maxControlPacketSize : Int
  enabled : Bool

/-- NewZeroOverheadHandler: constructor; requires a 32-byte PSK when
enabled and derives maxControlPacketSize = maxPacketSize - 2 - 16 - 24. -/
def NewZeroOverheadHandler (psk : List Nat) (maxPacketSize : Int)
    (enabled : Bool) : Except String ZeroOverheadHandler :=
  if enabled = false then
    .ok { maxPacketSize := 0, maxControlPacketSize := 0, enabled := false }
  else if psk.length ≠ 32 then
    .error "PSK must be 32 bytes"
  else
    .ok { maxPacketSize := maxPacketSize
        , maxControlPacketSize :=
            maxPacketSize - 2 - (chachaOverhead : Int) - (chachaNonceSizeX : Int)
        , enabled := true }

/-- binary.BigEndian.AppendUint16 of uint16(v): the two big-endian bytes
of v mod 2^16. -/
def beU16 (v : Nat) : List Nat := [v % 65536 / 256, v % 256]

/-- binary.BigEndian.Uint16 of the first two bytes of a slice. -/
def readBeU16 (l : List Nat) : Nat := l.getD 0 0 * 256 + l.getD 1 0

/-- The 24 nonce bytes drawn from crypto/rand. -/
def nonceBytes (r : Rand) : List Nat :=
  (List.range chachaNonceSizeX).map r.nonceByte

/-- n padding bytes drawn from crypto/rand. -/
def paddingBytes (r : Rand) (n : Nat) : List Nat :=
  (List.range n).map r.padByte

/-- The padding length chosen by Encrypt for a control packet:
1 + rand.Intn(headroom) when headroom > 0, else 0. -/
def controlPaddingLen (h : ZeroOverheadHandler) (r : Rand)
    (packetLen : Nat) : Nat :=
  let headroom : Int := h.maxControlPacketSize - packetLen
  if 0 < headroom then 1 + r.padChoice % headroom.toNat else 0

/-- ZeroOverheadHandler.Encrypt (zerooverhead.go lines 79-150). -/
def ZeroOverheadHandler.Encrypt (h : ZeroOverheadHandler) (c : Crypto)
    (r : Rand) (packet : List Nat) : Except String (List Nat) :=
  if h.enabled = false then .ok packet
  else if packet.length < aesBlockSize then .ok packet
  else
    let messageType := packet.headD 0
    let firstBlock := c.encBlock (packet.take aesBlockSize)
    let remainingPayload := packet.drop aesBlockSize
    if isControlPacket messageType = false then
      .ok (firstBlock ++ remainingPayload)
    else
      if h.maxControlPacketSize - (packet.length : Int) < 0 ∨
          remainingPayload.length > 65535 then
        .error "control packet is too large"
      else
        let paddingLen := controlPaddingLen h r packet.length
        let body := remainingPayload ++ paddingBytes r paddingLen ++
          beU16 remainingPayload.length
        .ok (firstBlock ++ c.aeadSeal (nonceBytes r) body ++ nonceBytes r)

/-- ZeroOverheadHandler.Decrypt (zerooverhead.go lines 153-217). -/
def ZeroOverheadHandler.Decrypt (h : ZeroOverheadHandler) (c : Crypto)
    (packet : List Nat) : Except String (List Nat) :=
  if h.enabled = false then .ok packet
  else if packet.length < aesBlockSize then .ok packet
  else
    let dst := c.decBlock (packet.take aesBlockSize)
    let messageType := dst.headD 0
    if isControlPacket messageType = false then
      .ok (dst ++ packet.drop aesBlockSize)
    else
      if packet.length < aesBlockSize + 2 + chachaOverhead + chachaNonceSizeX then
        .error "invalid control packet length"
      else
        let nonceStart := packet.length - chachaNonceSizeX
        let nonce := packet.drop nonceStart
        let ciphertext := (packet.take nonceStart).drop aesBlockSize
        match c.aeadOpen nonce ciphertext with
        | none => .error "message authentication failed"
        | some opened =>
          let plaintext := dst ++ opened
          if plaintext.length < 2 then .error "decrypted packet too small"
          else
            let paddingEnd := plaintext.length - 2
            let remainingPayloadSize := readBeU16 (plaintext.drop paddingEnd)
            let dstLen := dst.length + remainingPayloadSize
            if paddingEnd < dstLen then
              .error "invalid control packet payload length"
            else
              .ok (plaintext.take dstLen)

end Obfuscation

namespace Obfuscation

/-- Concrete executable instance of the crypto primitives, used to
evaluate the handler on explicit inputs: the block cipher shifts each
byte up by one, the AEAD appends a tag of sixteen zero bytes. -/
def sampleCrypto : Crypto where
  encBlock := fun b => b.map (fun x => x + 1)
  decBlock := fun b => b.map (fun x => x - 1)
  aeadSeal := fun _ pt => pt ++ List.replicate chachaOverhead 0
  aeadOpen := fun _ ct =>
    if chachaOverhead ≤ ct.length &&
        ct.drop (ct.length - chachaOverhead) == List.replicate chachaOverhead 0
    then some (ct.take (ct.length - chachaOverhead)) else none

/-- Fixed randomness oracle for concrete evaluations. -/
def sampleRand : Rand where
  padChoice := 0
  padByte := fun _ => 0
  nonceByte := fun _ => 0

theorem sampleCrypto_blockLen : BlockLen sampleCrypto := by
  intro b hb
  simp [sampleCrypto, hb]

theorem sampleCrypto_blockRoundtrip : BlockRoundtrip sampleCrypto := by
  intro b _
  have h : ((fun x => x - 1) ∘ fun x => x + 1) = (id : Nat → Nat) := by
    funext x
    simp
  simp [sampleCrypto, h]

theorem sampleCrypto_sealLen : SealLen sampleCrypto := by
  intro n pt
  simp [sampleCrypto, chachaOverhead]

theorem sampleCrypto_aeadRoundtrip : AeadRoundtrip sampleCrypto := by
  intro n pt
  simp only [sampleCrypto, AeadRoundtrip]
  rw [List.length_append, List.length_replicate]
  rw [Nat.add_sub_cancel]
  rw [List.drop_left, List.take_left]
  simp

theorem headD_expand (l : List Nat) (d : Nat) : l.headD d = l.head?.getD d := by
  cases l <;> rfl

theorem headD_take (l : List Nat) (n d : Nat) (hn : 0 < n) :
    (l.take n).headD d = l.headD d := by
  cases l <;> cases n <;> simp_all

theorem length_take_16 (P : List Nat) (hlen : 16 ≤ P.length) :
    (P.take 16).length = 16 := by
  simp [List.length_take]
  omega

theorem readBeU16_beU16 (v : Nat) (hv : v ≤ 65535) :
    readBeU16 (beU16 v) = v := by
  simp [readBeU16, beU16]
  omega

theorem NewZeroOverheadHandler_ok (psk : List Nat) (mps : Int)
    (h : ZeroOverheadHandler)
    (hmk : NewZeroOverheadHandler psk mps true = .ok h) :
    h.enabled = true ∧ h.maxControlPacketSize = mps - 42 := by
  unfold NewZeroOverheadHandler at hmk
  by_cases hp : psk.length = 32
  · simp [hp] at hmk
    subst hmk
    refine ⟨rfl, ?_⟩
    show mps - 2 - (chachaOverhead : Int) - (chachaNonceSizeX : Int) = mps - 42
    simp [chachaOverhead, chachaNonceSizeX]
    omega
  · simp [hp] at hmk

/-- Shape of Encrypt on a data-kind packet of length at least 16. -/
theorem Encrypt_data_eq (c : Crypto) (h : ZeroOverheadHandler) (r : Rand)
    (P : List Nat) (hen : h.enabled = true) (hlen : 16 ≤ P.length)
    (hdata : isControlPacket (P.headD 0) = false) :
    h.Encrypt c r P = .ok (c.encBlock (P.take 16) ++ P.drop 16) := by
  rw [headD_expand] at hdata
  have hnl : ¬ (P.length < 16) := by omega
  simp [ZeroOverheadHandler.Encrypt, hen, hdata, hnl, aesBlockSize]

/-- Shape of Encrypt on a control-kind packet whose size checks pass. -/
theorem Encrypt_control_eq (c : Crypto) (h : ZeroOverheadHandler) (r : Rand)
    (P : List Nat) (hen : h.enabled = true) (hlen : 16 ≤ P.length)
    (hct : isControlPacket (P.headD 0) = true)
    (hroom : ¬ (h.maxControlPacketSize - (P.length : Int) < 0))
    (hrem : P.length - 16 ≤ 65535) :
    h.Encrypt c r P = .ok (c.encBlock (P.take 16) ++
      c.aeadSeal (nonceBytes r)
        (P.drop 16 ++ paddingBytes r (controlPaddingLen h r P.length) ++
          beU16 (P.length - 16)) ++ nonceBytes r) := by
  rw [headD_expand] at hct
  have hnl : ¬ (P.length < 16) := by omega
  have hcond : ¬ (h.maxControlPacketSize < (P.length : Int) ∨
      65535 < P.length - 16) := by
    push_neg
    exact ⟨by omega, by omega⟩
  simp [ZeroOverheadHandler.Encrypt, hen, hct, hnl, aesBlockSize, hcond]

/-- Shape of Encrypt on a control-kind packet that is too large. -/
theorem Encrypt_control_err (c : Crypto) (h : ZeroOverheadHandler) (r : Rand)
    (P : List Nat) (hen : h.enabled = true) (hlen : 16 ≤ P.length)
    (hct : isControlPacket (P.headD 0) = true)
    (hbig : h.maxControlPacketSize - (P.length : Int) < 0 ∨
      65535 < P.length - 16) :
    h.Encrypt c r P = .error "control packet is too large" := by
  rw [headD_expand] at hct
  have hnl : ¬ (P.length < 16) := by omega
  have hcond : (h.maxControlPacketSize < (P.length : Int) ∨
      65535 < P.length - 16) := by
    rcases hbig with hb | hb
    · left
      omega
    · right
      omega
  simp [ZeroOverheadHandler.Encrypt, hen, hct, hnl, aesBlockSize, hcond]

end Obfuscation

namespace Obfuscation

/-- Decrypt of an arbitrary packet whose first 16 bytes decrypt to a
data-kind first block and whose remainder is the plaintext tail. -/
theorem Decrypt_data_generic (c : Crypto) (h : ZeroOverheadHandler)
    (P fb : List Nat)
    (hen : h.enabled = true) (hlen : 16 ≤ P.length)
    (hdata : isControlPacket (P.headD 0) = false)
    (hfb : fb.length = 16)
    (hdec : c.decBlock fb = P.take 16) :
    h.Decrypt c (fb ++ P.drop 16) = .ok P := by
  unfold ZeroOverheadHandler.Decrypt
  rw [if_neg (by rw [hen]; simp)]
  rw [if_neg (by simp [aesBlockSize, hfb])]
  simp only [aesBlockSize]
  rw [List.take_left' hfb]
  rw [hdec]
  rw [headD_take P 16 0 (by omega)]
  rw [hdata]
  rw [if_pos rfl]
  rw [List.drop_left' hfb]
  rw [List.take_append_drop]

theorem Decrypt_control_generic (c : Crypto) (h : ZeroOverheadHandler)
    (P pad nb fb sl : List Nat)
    (hen : h.enabled = true) (hlen : 16 ≤ P.length)
    (hct : isControlPacket (P.headD 0) = true)
    (hrem : P.length - 16 ≤ 65535) (hnb : nb.length = 24)
    (hfb : fb.length = 16)
    (hdec : c.decBlock fb = P.take 16)
    (hsl2 : sl.length = (P.length - 16) + (pad.length + 2) + 16)
    (hopen : c.aeadOpen nb sl =
      some (P.drop 16 ++ pad ++ beU16 (P.length - 16))) :
    h.Decrypt c (fb ++ sl ++ nb) = .ok P := by
  have htk : (P.take 16).length = 16 := length_take_16 P hlen
  rw [List.append_assoc]
  have hplen : (fb ++ (sl ++ nb)).length = sl.length + 40 := by
    simp [hfb, hnb]
    omega
  unfold ZeroOverheadHandler.Decrypt
  rw [if_neg (by rw [hen]; simp)]
  rw [if_neg (by rw [hplen]; simp [aesBlockSize])]
  simp only [aesBlockSize, chachaOverhead, chachaNonceSizeX]
  rw [List.take_left' hfb]
  rw [hdec]
  rw [headD_expand, ← headD_expand (P.take 16) 0, headD_take P 16 0 (by omega), hct]
  simp only [Bool.true_eq_false, if_false]
  rw [if_neg (by rw [hplen]; omega)]
  rw [hplen]
  rw [show sl.length + 40 - 24 = 16 + sl.length from by omega]
  have hdropnb : (fb ++ (sl ++ nb)).drop (16 + sl.length) = nb := by
    rw [← List.append_assoc]
    have h2 : (fb ++ sl).length = 16 + sl.length := by simp [hfb]
    rw [← h2, List.drop_left]
  have htakefs : (fb ++ (sl ++ nb)).take (16 + sl.length) = fb ++ sl := by
    rw [← List.append_assoc]
    have h2 : (fb ++ sl).length = 16 + sl.length := by simp [hfb]
    rw [← h2, List.take_left]
  rw [hdropnb, htakefs]
  rw [List.drop_left' hfb]
  rw [hopen]
  dsimp only
  rw [htk]
  have hpl : ((P.take 16) ++ (P.drop 16 ++ pad ++ beU16 (P.length - 16))).length =
      16 + ((P.length - 16) + (pad.length + 2)) := by
    simp [htk, beU16]
  rw [if_neg (by rw [hpl]; omega)]
  rw [hpl]
  rw [show 16 + ((P.length - 16) + (pad.length + 2)) - 2 =
    P.length + pad.length from by omega]
  have hplaineq : (P.take 16) ++ (P.drop 16 ++ pad ++ beU16 (P.length - 16)) =
      (P ++ pad) ++ beU16 (P.length - 16) := by
    rw [← List.append_assoc, ← List.append_assoc, List.take_append_drop]
  rw [hplaineq]
  have hppl : (P ++ pad).length = P.length + pad.length := by simp
  rw [show ((P ++ pad) ++ beU16 (P.length - 16)).drop (P.length + pad.length) =
    beU16 (P.length - 16) from by rw [← hppl, List.drop_left]]
  rw [readBeU16_beU16 _ hrem]
  rw [show 16 + (P.length - 16) = P.length from by omega]
  rw [if_neg (by omega)]
  rw [List.append_assoc]
  rw [show P.length = (List.length P) from rfl, List.take_left]

end Obfuscation

namespace Obfuscation

/-- C1: for every packet P with at least 16 bytes and an enabled handler
built from a 32-byte PSK, Decrypt inverts Encrypt; for control-kind P
this holds under the precondition that Encrypt succeeds. -/
theorem claim1_decrypt_encrypt (c : Crypto) (h : ZeroOverheadHandler)
    (r : Rand) (psk P out : List Nat) (mps : Int)
    (hb : BlockLen c) (hbr : BlockRoundtrip c) (hsl : SealLen c)
    (har : AeadRoundtrip c)
    (hmk : NewZeroOverheadHandler psk mps true = .ok h)
    (hlen : 16 ≤ P.length)
    (henc : h.Encrypt c r P = .ok out) :
    h.Decrypt c out = .ok P := by
  obtain ⟨hen, -⟩ := NewZeroOverheadHandler_ok psk mps h hmk
  have htk := length_take_16 P hlen
  by_cases hct : isControlPacket (P.headD 0) = true
  · by_cases hcond : h.maxControlPacketSize - (P.length : Int) < 0 ∨
        65535 < P.length - 16
    · rw [Encrypt_control_err c h r P hen hlen hct hcond] at henc
      exact absurd henc (by simp)
    · push_neg at hcond
      obtain ⟨hroom, hrem⟩ := hcond
      rw [Encrypt_control_eq c h r P hen hlen hct (by omega) hrem] at henc
      have hout := Except.ok.inj henc
      subst hout
      refine Decrypt_control_generic c h P
        (paddingBytes r (controlPaddingLen h r P.length)) (nonceBytes r)
        (c.encBlock (P.take 16)) _ hen hlen hct hrem
        (by simp [nonceBytes, chachaNonceSizeX]) (hb _ htk) (hbr _ htk)
        ?_ (har _ _)
      rw [hsl]
      simp [beU16, paddingBytes, chachaOverhead]
  · have hdat : isControlPacket (P.headD 0) = false := by
      simpa using hct
    rw [Encrypt_data_eq c h r P hen hlen hdat] at henc
    have hout := Except.ok.inj henc
    subst hout
    exact Decrypt_data_generic c h P _ hen hlen hdat (hb _ htk) (hbr _ htk)

def samplePSK : List Nat := List.replicate 32 165

def sampleHandler : ZeroOverheadHandler :=
  { maxPacketSize := 100, maxControlPacketSize := 58, enabled := true }

def P0 : List Nat := 3 :: List.replicate 15 0

def encP0 : List Nat :=
  4 :: List.replicate 15 1 ++ ([0] ++ [0, 0] ++ List.replicate 16 0) ++
    List.replicate 24 0

theorem claim1_witness :
    sampleHandler.Encrypt sampleCrypto sampleRand P0 = .ok encP0 ∧
    sampleHandler.Decrypt sampleCrypto encP0 = .ok P0 := by
  have hmk : NewZeroOverheadHandler samplePSK 100 true = .ok sampleHandler := by
    rfl
  have henc : sampleHandler.Encrypt sampleCrypto sampleRand P0 = .ok encP0 := by
    rfl
  exact ⟨henc, claim1_decrypt_encrypt sampleCrypto sampleHandler sampleRand
    samplePSK P0 encP0 100 sampleCrypto_blockLen sampleCrypto_blockRoundtrip
    sampleCrypto_sealLen sampleCrypto_aeadRoundtrip hmk (by decide) henc⟩

/-- C2: for every data-kind packet P (first byte not a control kind) of
length at least 16, Encrypt succeeds, preserves the length, and changes
only the first 16 bytes. -/
theorem claim2_data_shape (c : Crypto) (h : ZeroOverheadHandler) (r : Rand)
    (P : List Nat) (hb : BlockLen c) (hen : h.enabled = true)
    (hlen : 16 ≤ P.length)
    (hdata : isControlPacket (P.headD 0) = false) :
    ∃ out, h.Encrypt c r P = .ok out ∧ out.length = P.length ∧
      out.drop 16 = P.drop 16 := by
  have hfb : (c.encBlock (P.take 16)).length = 16 :=
    hb _ (length_take_16 P hlen)
  refine ⟨_, Encrypt_data_eq c h r P hen hlen hdata, ?_, ?_⟩
  · simp [hfb]
    omega
  · exact List.drop_left' hfb

def P1 : List Nat := List.range 128

theorem claim2_witness :
    ∃ out, sampleHandler.Encrypt sampleCrypto sampleRand P1 = .ok out ∧
      out.length = P1.length ∧ out.drop 16 = P1.drop 16 :=
  claim2_data_shape sampleCrypto sampleHandler sampleRand P1
    sampleCrypto_blockLen rfl (by simp [P1]) (by rfl)

/-- C3: for every control-kind packet P of length at least 16 (and small
enough that its tail fits in the u16 length field): Encrypt fails with
the packet-too-large error when the packet exceeds maxControlPacketSize,
succeeds with zero padding exactly at maxControlPacketSize, and succeeds
with padding length in the interval from 1 to headroom when headroom is
positive. -/
theorem claim3_control_padding (c : Crypto) (h : ZeroOverheadHandler)
    (r : Rand) (P : List Nat) (hen : h.enabled = true)
    (hlen : 16 ≤ P.length)
    (hct : isControlPacket (P.headD 0) = true)
    (hsize : P.length ≤ 65551) :
    (h.maxControlPacketSize < (P.length : Int) →
      h.Encrypt c r P = .error "control packet is too large") ∧
    ((P.length : Int) = h.maxControlPacketSize →
      controlPaddingLen h r P.length = 0 ∧
      ∃ out, h.Encrypt c r P = .ok out) ∧
    (0 < h.maxControlPacketSize - (P.length : Int) →
      1 ≤ controlPaddingLen h r P.length ∧
      (controlPaddingLen h r P.length : Int) ≤
        h.maxControlPacketSize - (P.length : Int) ∧
      ∃ out, h.Encrypt c r P = .ok out) := by
  refine ⟨?_, ?_, ?_⟩
  · intro hlt
    exact Encrypt_control_err c h r P hen hlen hct (Or.inl (by omega))
  · intro heq
    have h0 : h.maxControlPacketSize - (P.length : Int) = 0 := by omega
    constructor
    · simp [controlPaddingLen, h0]
    · exact ⟨_, Encrypt_control_eq c h r P hen hlen hct (by omega) (by omega)⟩
  · intro hpos
    have hn : 0 < (h.maxControlPacketSize - (P.length : Int)).toNat := by omega
    have hpad : controlPaddingLen h r P.length =
        1 + r.padChoice % (h.maxControlPacketSize - (P.length : Int)).toNat := by
      simp [controlPaddingLen, hpos]
    refine ⟨by omega, ?_, ?_⟩
    · rw [hpad]
      have hmod : r.padChoice % (h.maxControlPacketSize - (P.length : Int)).toNat <
          (h.maxControlPacketSize - (P.length : Int)).toNat :=
        Nat.mod_lt _ hn
      omega
    · exact ⟨_, Encrypt_control_eq c h r P hen hlen hct (by omega) (by omega)⟩

def ctrlBig : List Nat := 3 :: List.replicate 58 0

def ctrlExact : List Nat := 3 :: List.replicate 57 0

theorem claim3_witness :
    (sampleHandler.Encrypt sampleCrypto sampleRand ctrlBig =
      .error "control packet is too large") ∧
    (controlPaddingLen sampleHandler sampleRand ctrlExact.length = 0 ∧
      ∃ out, sampleHandler.Encrypt sampleCrypto sampleRand ctrlExact = .ok out) ∧
    (1 ≤ controlPaddingLen sampleHandler sampleRand P0.length ∧
      (controlPaddingLen sampleHandler sampleRand P0.length : Int) ≤
        sampleHandler.maxControlPacketSize - (P0.length : Int) ∧
      ∃ out, sampleHandler.Encrypt sampleCrypto sampleRand P0 = .ok out) := by
  refine ⟨?_, ?_, ?_⟩
  · exact (claim3_control_padding sampleCrypto sampleHandler sampleRand ctrlBig
      rfl (by decide) (by decide) (by decide)).1 (by decide)
  · exact (claim3_control_padding sampleCrypto sampleHandler sampleRand ctrlExact
      rfl (by decide) (by decide) (by decide)).2.1 (by decide)
  · exact (claim3_control_padding sampleCrypto sampleHandler sampleRand P0
      rfl (by decide) (by decide) (by decide)).2.2 (by decide)

/-- C4 (amended): for every control-kind packet on which Encrypt
succeeds, the output is strictly longer than the input, at least
16 + 2 + 16 + 24 bytes long, and at most maxControlPacketSize + 2 + 16 + 24
bytes long (the spec claim omits the 2-byte length field from the upper
bound). -/
theorem claim4_control_length (c : Crypto) (h : ZeroOverheadHandler)
    (r : Rand) (P out : List Nat)
    (hb : BlockLen c) (hsl : SealLen c)
    (hen : h.enabled = true) (hlen : 16 ≤ P.length)
    (hct : isControlPacket (P.headD 0) = true)
    (henc : h.Encrypt c r P = .ok out) :
    P.length < out.length ∧ 16 + 2 + 16 + 24 ≤ out.length ∧
    (out.length : Int) ≤ h.maxControlPacketSize + 2 + 16 + 24 := by
  by_cases hcond : h.maxControlPacketSize - (P.length : Int) < 0 ∨
      65535 < P.length - 16
  · rw [Encrypt_control_err c h r P hen hlen hct hcond] at henc
    exact absurd henc (by simp)
  · push_neg at hcond
    obtain ⟨hroom, hrem⟩ := hcond
    rw [Encrypt_control_eq c h r P hen hlen hct (by omega) hrem] at henc
    have hout := Except.ok.inj henc
    subst hout
    have hfb : (c.encBlock (P.take 16)).length = 16 :=
      hb _ (length_take_16 P hlen)
    have hpadbound : (controlPaddingLen h r P.length : Int) ≤
        h.maxControlPacketSize - (P.length : Int) := by
      unfold controlPaddingLen
      by_cases hpos : 0 < h.maxControlPacketSize - (P.length : Int)
      · rw [if_pos hpos]
        have hmod : r.padChoice % (h.maxControlPacketSize - (P.length : Int)).toNat <
            (h.maxControlPacketSize - (P.length : Int)).toNat :=
          Nat.mod_lt _ (by omega)
        omega
      · rw [if_neg hpos]
        simp
        omega
    have hslen : (c.aeadSeal (nonceBytes r)
        (P.drop 16 ++ paddingBytes r (controlPaddingLen h r P.length) ++
          beU16 (P.length - 16))).length =
        (P.length - 16) + (controlPaddingLen h r P.length + 2) + 16 := by
      rw [hsl]
      simp [beU16, paddingBytes, chachaOverhead]
    have hnbl : (nonceBytes r).length = 24 := by
      simp [nonceBytes, chachaNonceSizeX]
    have houtlen : (c.encBlock (P.take 16) ++ c.aeadSeal (nonceBytes r)
        (P.drop 16 ++ paddingBytes r (controlPaddingLen h r P.length) ++
          beU16 (P.length - 16)) ++ nonceBytes r).length =
        16 + ((P.length - 16) + (controlPaddingLen h r P.length + 2) + 16) + 24 := by
      rw [List.length_append, List.length_append, hfb, hslen, hnbl]
    rw [houtlen]
    refine ⟨by omega, by omega, by omega⟩

def ctrlExactEnc : List Nat :=
  4 :: List.replicate 15 1 ++
    (List.replicate 42 0 ++ [0, 42] ++ List.replicate 16 0) ++
    List.replicate 24 0

/-- C4 as stated is false: at a control packet of exactly
maxControlPacketSize bytes, Encrypt succeeds and the output has
maxControlPacketSize + 42 bytes, which exceeds the claimed bound of
maxControlPacketSize + 16 + 24. -/
theorem claim4_counterexample :
    sampleHandler.Encrypt sampleCrypto sampleRand ctrlExact = .ok ctrlExactEnc ∧
    ¬ ((ctrlExactEnc.length : Int) ≤
      sampleHandler.maxControlPacketSize + 16 + 24) := by
  constructor
  · rfl
  · decide

theorem claim4_witness :
    ctrlExact.length < ctrlExactEnc.length ∧
    16 + 2 + 16 + 24 ≤ ctrlExactEnc.length ∧
    (ctrlExactEnc.length : Int) ≤
      sampleHandler.maxControlPacketSize + 2 + 16 + 24 :=
  claim4_control_length sampleCrypto sampleHandler sampleRand ctrlExact
    ctrlExactEnc sampleCrypto_blockLen sampleCrypto_sealLen rfl (by decide)
    (by decide) (by rfl)

/-- C5: any packet of at least 16 bytes whose decrypted first block
names a control kind but whose total length is below
16 + 2 + 16 + 24 bytes is rejected by Decrypt with the typed
invalid-control-packet-length error. -/
theorem claim5_short_control (c : Crypto) (h : ZeroOverheadHandler)
    (packet : List Nat)
    (hen : h.enabled = true) (hlen : 16 ≤ packet.length)
    (hct : isControlPacket ((c.decBlock (packet.take 16)).headD 0) = true)
    (hshort : packet.length < 16 + 2 + 16 + 24) :
    h.Decrypt c packet = .error "invalid control packet length" := by
  unfold ZeroOverheadHandler.Decrypt
  rw [if_neg (by rw [hen]; simp)]
  rw [if_neg (by simp [aesBlockSize]; omega)]
  simp only [aesBlockSize, chachaOverhead, chachaNonceSizeX]
  rw [hct]
  rw [if_neg (by simp)]
  rw [if_pos (by omega)]

def sampleHandlerSmall : ZeroOverheadHandler :=
  { maxPacketSize := 58, maxControlPacketSize := 16, enabled := true }

def encP0min : List Nat :=
  4 :: List.replicate 15 1 ++ ([0, 0] ++ List.replicate 16 0) ++
    List.replicate 24 0

theorem claim5_witness :
    sampleHandlerSmall.Encrypt sampleCrypto sampleRand P0 = .ok encP0min ∧
    sampleHandlerSmall.Decrypt sampleCrypto (encP0min.take 57) =
      .error "invalid control packet length" := by
  refine ⟨by rfl, ?_⟩
  exact claim5_short_control sampleCrypto sampleHandlerSmall
    (encP0min.take 57) rfl (by decide) (by rfl) (by decide)

end Obfuscation

namespace FakeTCP

/-!
Embedding of the pseudo-TCP transport. Byte buffers are `List Nat`.
The Go Socket holds the stack/tun pointers, its incoming channel and its
close channel besides the counters; channel interaction and wire writes
are abstracted as an oracle of per-iteration events (`ConnIter`), and a
socket's addresses live in the stack's map key. Elapsed time is counted
in seconds over the full ConnTimeout waits (timeouts and failed-send
sleeps); partial waits before an arrival contribute zero.
-/

def IPv4HeaderLen : Nat := 20

def IPv6HeaderLen : Nat := 40

def TCPHeaderLen : Nat := 20

def ConnTimeout : Nat := 3

def RetryCount : Nat := 6

def FIN : Nat := 1

def SYN : Nat := 2

def RST : Nat := 4

def PSH : Nat := 8

def ACK : Nat := 16

def URG : Nat := 32

/-- Byte i of a buffer (Go indexing into a []byte). -/
def byteAt (l : List Nat) (i : Nat) : Nat := l.getD i 0

/-- binary.BigEndian.Uint16 at offset i. -/
def readU16 (l : List Nat) (i : Nat) : Nat :=
  byteAt l i * 256 + byteAt l (i + 1)

/-- binary.BigEndian.Uint32 at offset i. -/
def readU32 (l : List Nat) (i : Nat) : Nat :=
  ((byteAt l i * 256 + byteAt l (i + 1)) * 256 + byteAt l (i + 2)) * 256 +
    byteAt l (i + 3)

/-- struct TCPPacket (packet.go). -/
structure TCPPacket where
  srcIP : List Nat
  dstIP : List Nat
  srcPort : Nat
  dstPort : Nat
  seq : Nat
  ack : Nat
  flags : Nat
  window : Nat
  payload : List Nat
  isIPv6 : Bool
deriving Repr, DecidableEq

/-- ParseTCPPacket (packet.go lines 84-141). The version dispatch fills
(isIPv6, srcIP, dstIP, proto, tcpStart); the shared tail then checks the
protocol and the TCP header length and reads the TCP fields. A data
offset pointing at or past the end of the segment leaves the payload
empty (Go leaves the field nil). -/
def ParseTCPPacket (buf : List Nat) : Option TCPPacket :=
  if buf.length < IPv4HeaderLen then none
  else
    let version := byteAt buf 0 / 16
    let info : Option (Bool × List Nat × List Nat × Nat × Nat) :=
      if version = 4 then
        some (false, (buf.drop 12).take 4, (buf.drop 16).take 4,
          byteAt buf 9, IPv4HeaderLen)
      else if version = 6 then
        if buf.length < IPv6HeaderLen then none
        else
          some (true, (buf.drop 8).take 16, (buf.drop 24).take 16,
            byteAt buf 6, IPv6HeaderLen)
      else none
    match info with
    | none => none
    | some (isV6, srcIP, dstIP, proto, tcpStart) =>
      if proto ≠ 6 then none
      else if buf.length < tcpStart + TCPHeaderLen then none
      else
        let tcpBuf := buf.drop tcpStart
        let dataOffset := byteAt tcpBuf 12 / 16 * 4
        some { srcIP := srcIP
               dstIP := dstIP
               srcPort := readU16 tcpBuf 0
               dstPort := readU16 tcpBuf 2
               seq := readU32 tcpBuf 4
               ack := readU32 tcpBuf 8
               flags := byteAt tcpBuf 13
               window := readU16 tcpBuf 14
               payload :=
                 if dataOffset < tcpBuf.length then tcpBuf.drop dataOffset
                 else []
               isIPv6 := isV6 }

/-- IP version nibble of a buffer (buf[0] >> 4). -/
def ipVersion (buf : List Nat) : Nat := byteAt buf 0 / 16

/-- Protocol / next-header field of a buffer, per IP version. -/
def ipProto (buf : List Nat) : Nat :=
  if ipVersion buf = 4 then byteAt buf 9 else byteAt buf 6

/-- IP header length of a buffer, per IP version. -/
def ipHeaderLen (buf : List Nat) : Nat :=
  if ipVersion buf = 4 then IPv4HeaderLen else IPv6HeaderLen

/-- ConnState (socket.go). -/
inductive ConnState where
  | Idle
  | SynSent
  | SynReceived
  | Established
  | Closed
deriving Repr, DecidableEq

/-- The mutable per-socket state of struct Socket: 32-bit counters,
connection state and the closed flag. -/
structure Socket where
  seq : Nat
  ack : Nat
  lastAck : Nat
  state : ConnState
  closed : Bool
deriving Repr, DecidableEq

/-- uint32 wraparound. -/
def u32 (n : Nat) : Nat := n % 4294967296

/-- What the select in one Connect iteration observes: a timer expiry, a
packet from the incoming channel, or the close channel firing. -/
inductive WaitEvent where
  | timeout
  | recv (data : List Nat)
  | closeSignal
deriving Repr, DecidableEq

/-- Oracle for one iteration of the Connect retry loop: whether the SYN
write succeeds, what the select observes, and whether the final ACK
write succeeds. -/
structure ConnIter where
  synSendOk : Bool
  wait : WaitEvent
  ackSendOk : Bool
deriving Repr, DecidableEq

/-- Default iteration when the oracle list is exhausted: sends succeed
and nothing arrives. -/
def defaultIter : ConnIter :=
  { synSendOk := true, wait := .timeout, ackSendOk := true }

/-- Outcome of Connect. -/
inductive ConnResult where
  | established
  | notIdle
  | closedDuringConnect
  | timedOut
deriving Repr, DecidableEq

/-- The retry loop of Socket.Connect (socket.go lines 96-137): n
remaining iterations; returns the final socket state, the outcome, the
number of SYN transmissions attempted and the seconds spent in full
ConnTimeout waits. -/
def connectLoop : Nat → List ConnIter → Socket → Nat → Nat →
    Socket × ConnResult × Nat × Nat
  | 0, _, s, syn, t => ({ s with state := .Closed }, .timedOut, syn, t)
  | n + 1, events, s, syn, t =>
    let e := events.headD defaultIter
    let rest := events.tail
    if e.synSendOk = false then
      connectLoop n rest s (syn + 1) (t + ConnTimeout)
    else
      match e.wait with
      | .timeout => connectLoop n rest s (syn + 1) (t + ConnTimeout)
      | .closeSignal => (s, .closedDuringConnect, syn + 1, t)
      | .recv data =>
        match ParseTCPPacket data with
        | none => connectLoop n rest s (syn + 1) t
        | some pkt =>
          if pkt.flags = SYN ||| ACK then
            let s1 := { s with
              seq := u32 (s.seq + 1)
              ack := u32 (pkt.seq + 1)
              lastAck := u32 (pkt.seq + 1) }
            if e.ackSendOk then
              ({ s1 with state := .Established }, .established, syn + 1, t)
            else
              connectLoop n rest s1 (syn + 1) t
          else
            connectLoop n rest s (syn + 1) t

/-- Socket.Connect (socket.go lines 86-143). -/
def Socket.Connect (s : Socket) (events : List ConnIter) :
    Socket × ConnResult × Nat × Nat :=
  if s.state ≠ .Idle then (s, .notIdle, 0, 0)
  else connectLoop RetryCount events { s with state := .SynSent } 0 0

/-- Socket.Send (socket.go lines 204-226); writeOk models the outcome of
the underlying TUN write. -/
def Socket.Send (s : Socket) (data : List Nat) (writeOk : Bool) :
    Except String Socket :=
  if s.state ≠ .Established then .error "socket not established"
  else if s.closed = true then .error "socket closed"
  else if writeOk = false then .error "failed to send data"
  else .ok { s with seq := u32 (s.seq + data.length) }

/-- The socket-local effect of Socket.Close (socket.go lines 302-320):
idempotent via the closed flag swap; stack unregistration is modelled on
the stack. -/
def Socket.Close (s : Socket) : Socket :=
  if s.closed = true then s else { s with state := .Closed, closed := true }

/-- addrTuple (stack.go): the unique connection identifier; addresses
are represented by their net.UDPAddr string form, which is what the Go
map key holds. -/
structure AddrTuple where
  localAddr : String
  remoteAddr : String
deriving Repr, DecidableEq, BEq

/-- The mutable state of struct Stack: whether stopChan has been closed,
the listening-port set and the socket map (as an association list over
the address tuple). TUN handles and the accept queue are external
resources abstracted away. -/
structure Stack where
  stopChanClosed : Bool
  listening : List Nat
  sockets : List (AddrTuple × Socket)
deriving Repr, DecidableEq

/-- Go map lookup s.sockets[tuple]. -/
def socketsLookup (m : List (AddrTuple × Socket)) (t : AddrTuple) :
    Option Socket :=
  (m.find? (fun p => p.1 == t)).map (fun p => p.2)

/-- Go map assignment s.sockets[tuple] = sock. -/
def socketsInsert (m : List (AddrTuple × Socket)) (t : AddrTuple)
    (s : Socket) : List (AddrTuple × Socket) :=
  (t, s) :: m.filter (fun p => p.1 != t)

/-- Go map delete(s.sockets, tuple) (Stack.unregisterSocket,
stack.go lines 222-228). -/
def socketsDelete (m : List (AddrTuple × Socket)) (t : AddrTuple) :
    List (AddrTuple × Socket) :=
  m.filter (fun p => p.1 != t)

/-- Stack.Close (stack.go lines 231-252): close(s.stopChan) panics in Go
when the channel is already closed (modelled as the error value); on the
first call the TUN devices are closed, all sockets are closed and the
socket map is reset to empty, and nil is returned. -/
def Stack.Close (st : Stack) : Except String Stack :=
  if st.stopChanClosed = true then .error "panic: close of closed channel"
  else .ok { st with stopChanClosed := true, sockets := [] }

/-- Stack.Connect (stack.go lines 83-119): create an Idle socket with a
random initial sequence number, register it under the address tuple, run
Socket.Connect, and unregister it again if the handshake fails. Local-IP
selection and address formatting happen in the external net library and
are abstracted into the given address strings. -/
def Stack.Connect (st : Stack) (localAddr remoteAddr : String)
    (initSeq : Nat) (events : List ConnIter) :
    Stack × Except String Socket :=
  let tuple : AddrTuple := { localAddr := localAddr, remoteAddr := remoteAddr }
  let sock : Socket :=
    { seq := u32 initSeq, ack := 0, lastAck := 0, state := .Idle
      closed := false }
  let st1 := { st with sockets := socketsInsert st.sockets tuple sock }
  match Socket.Connect sock events with
  | (sockFinal, .established, _, _) =>
    ({ st with sockets := socketsInsert st.sockets tuple sockFinal },
      .ok sockFinal)
  | (_, _, _, _) =>
    ({ st1 with sockets := socketsDelete st1.sockets tuple },
      .error "connect failed")

/-- The connect retry loop under an oracle in which every SYN write
succeeds and no wait delivers a SYN-ACK: every iteration is consumed,
the socket ends Closed and the outcome is the timeout error. -/
theorem connectLoop_noSynAck (n : Nat) :
    ∀ (events : List ConnIter) (s : Socket) (syn t : Nat),
    (∀ e ∈ events, e.synSendOk = true ∧
      (e.wait = WaitEvent.timeout ∨ ∃ data, e.wait = WaitEvent.recv data ∧
        ∀ pkt, ParseTCPPacket data = some pkt → pkt.flags ≠ SYN ||| ACK)) →
    ∃ w, connectLoop n events s syn t =
        ({ s with state := .Closed }, .timedOut, syn + n, t + w) ∧
      w ≤ n * ConnTimeout ∧
      ((∀ e ∈ events, e.wait = WaitEvent.timeout) → w = n * ConnTimeout) := by
  induction n with
  | zero =>
    intro events s syn t _
    exact ⟨0, rfl, by omega, fun _ => rfl⟩
  | succ n ih =>
    intro events s syn t hq
    cases events with
    | nil =>
      obtain ⟨w, hw, hwb, hwt⟩ := ih [] s (syn + 1) (t + ConnTimeout)
        (by intro e he; cases he)
      refine ⟨ConnTimeout + w, ?_,
        by simp only [ConnTimeout] at *; omega, ?_⟩
      · rw [show connectLoop (n + 1) [] s syn t =
          connectLoop n [] s (syn + 1) (t + ConnTimeout) from rfl, hw]
        have harith : t + ConnTimeout + w = t + (ConnTimeout + w) := by omega
        have hsyn : syn + 1 + n = syn + (n + 1) := by omega
        rw [harith, hsyn]
      · intro _
        have h1 := hwt (by intro e he; cases he)
        simp only [ConnTimeout] at *
        omega
    | cons e es =>
      obtain ⟨hsend, hwait⟩ := hq e (by simp)
      have hqes : ∀ x ∈ es, x.synSendOk = true ∧
          (x.wait = WaitEvent.timeout ∨ ∃ data, x.wait = WaitEvent.recv data ∧
            ∀ pkt, ParseTCPPacket data = some pkt →
              pkt.flags ≠ SYN ||| ACK) := by
        intro x hx
        exact hq x (by simp [hx])
      rcases hwait with htime | ⟨data, hrecv, hnot⟩
      · obtain ⟨w, hw, hwb, hwt⟩ := ih es s (syn + 1) (t + ConnTimeout) hqes
        refine ⟨ConnTimeout + w, ?_,
          by simp only [ConnTimeout] at *; omega, ?_⟩
        · have hstep : connectLoop (n + 1) (e :: es) s syn t =
              connectLoop n es s (syn + 1) (t + ConnTimeout) := by
            simp [connectLoop, hsend, htime]
          rw [hstep, hw]
          have harith : t + ConnTimeout + w = t + (ConnTimeout + w) := by omega
          have hsyn : syn + 1 + n = syn + (n + 1) := by omega
          rw [harith, hsyn]
        · intro hall
          have h1 := hwt (by intro x hx; exact hall x (by simp [hx]))
          simp only [ConnTimeout] at *
          omega
      · obtain ⟨w, hw, hwb, hwt⟩ := ih es s (syn + 1) t hqes
        refine ⟨w, ?_, by simp only [ConnTimeout] at *; omega, ?_⟩
        · have hstep : connectLoop (n + 1) (e :: es) s syn t =
              connectLoop n es s (syn + 1) t := by
            cases hp : ParseTCPPacket data with
            | none => simp [connectLoop, hsend, hrecv, hp]
            | some pkt =>
              have hflags : pkt.flags ≠ SYN ||| ACK := hnot pkt hp
              simp [connectLoop, hsend, hrecv, hp, hflags]
          rw [hstep, hw]
          have hsyn : syn + 1 + n = syn + (n + 1) := by omega
          rw [hsyn]
        · intro hall
          have : e.wait = WaitEvent.timeout := hall e (by simp)
          rw [hrecv] at this
          cases this

/-- C6: for a socket in Idle on which Connect is called while every SYN
write succeeds and no SYN-ACK ever arrives on the incoming queue,
Connect performs exactly RetryCount = 6 SYN attempts, each waiting at
most ConnTimeout = 3 seconds, leaves the socket Closed, and returns the
timeout outcome; when nothing arrives at all the elapsed wait is exactly
RetryCount * ConnTimeout. -/
theorem claim6_connect_timeout (s : Socket) (events : List ConnIter)
    (hidle : s.state = ConnState.Idle)
    (hq : ∀ e ∈ events, e.synSendOk = true ∧
      (e.wait = WaitEvent.timeout ∨ ∃ data, e.wait = WaitEvent.recv data ∧
        ∀ pkt, ParseTCPPacket data = some pkt → pkt.flags ≠ SYN ||| ACK)) :
    ∃ w, Socket.Connect s events =
        ({ s with state := .Closed }, .timedOut, RetryCount, w) ∧
      w ≤ RetryCount * ConnTimeout ∧
      ((∀ e ∈ events, e.wait = WaitEvent.timeout) →
        w = RetryCount * ConnTimeout) := by
  obtain ⟨w, hw, hwb, hwt⟩ := connectLoop_noSynAck RetryCount events
    { s with state := .SynSent } 0 0 hq
  refine ⟨w, ?_, hwb, hwt⟩
  unfold Socket.Connect
  rw [if_neg (by simp [hidle])]
  rw [hw]
  simp

theorem claim6_witness :
    ∃ w, Socket.Connect
        { seq := 7, ack := 0, lastAck := 0, state := .Idle, closed := false }
        [] =
      ({ seq := 7, ack := 0, lastAck := 0, state := .Closed, closed := false },
        .timedOut, RetryCount, w) ∧
      w ≤ RetryCount * ConnTimeout ∧
      ((∀ e ∈ ([] : List ConnIter), e.wait = WaitEvent.timeout) →
        w = RetryCount * ConnTimeout) :=
  claim6_connect_timeout
    { seq := 7, ack := 0, lastAck := 0, state := .Idle, closed := false }
    [] rfl (by intro e he; cases he)

/-- C7: Send returns an error whenever the socket is not Established
(in particular after Close), and a successful Send advances seq by
exactly the payload length modulo 2^32. -/
theorem claim7_send_seq (s : Socket) (data : List Nat) (writeOk : Bool) :
    (s.state ≠ ConnState.Established →
      ∃ e, Socket.Send s data writeOk = .error e) ∧
    (∀ wOk, ∃ e, Socket.Send (Socket.Close s) data wOk = .error e) ∧
    (∀ s', Socket.Send s data writeOk = .ok s' →
      s'.seq = (s.seq + data.length) % 4294967296) := by
  refine ⟨?_, ?_, ?_⟩
  · intro hne
    exact ⟨"socket not established", by simp [Socket.Send, hne]⟩
  · intro wOk
    by_cases hc : s.closed = true
    · by_cases hst : (Socket.Close s).state = ConnState.Established
      · refine ⟨"socket closed", ?_⟩
        have hcc : (Socket.Close s).closed = true := by
          simp [Socket.Close, hc]
        simp [Socket.Send, hst, hcc]
      · exact ⟨"socket not established", by simp [Socket.Send, hst]⟩
    · have hst : (Socket.Close s).state = ConnState.Closed := by
        simp [Socket.Close, hc]
      exact ⟨"socket not established", by simp [Socket.Send, hst]⟩
  · intro s' hok
    unfold Socket.Send at hok
    by_cases h1 : s.state = ConnState.Established
    · by_cases h2 : s.closed = true
      · simp [h1, h2] at hok
      · by_cases h3 : writeOk = false
        · simp [h1, h2, h3] at hok
        · simp [h1, h2, h3] at hok
          rw [← hok]
          rfl
    · simp [h1] at hok

def sockEst : Socket :=
  { seq := 4294967295, ack := 9, lastAck := 9, state := .Established
    closed := false }

def sockIdle : Socket :=
  { seq := 11, ack := 0, lastAck := 0, state := .Idle, closed := false }

theorem claim7_witness :
    (∃ e, Socket.Send sockIdle [1, 2, 3] true = .error e) ∧
    (∃ e, Socket.Send (Socket.Close sockEst) [1, 2, 3] true = .error e) ∧
    (∀ s', Socket.Send sockEst [1, 2, 3] true = .ok s' →
      s'.seq = (sockEst.seq + 3) % 4294967296) :=
  ⟨(claim7_send_seq sockIdle [1, 2, 3] true).1 (by decide),
   (claim7_send_seq sockEst [1, 2, 3] true).2.1 true,
   (claim7_send_seq sockEst [1, 2, 3] true).2.2⟩

/-- C8 (amended): Stack.Close is not idempotent. The first Close on a
stack whose stop channel is still open returns nil and empties the
socket map, but a second Close panics in Go: it calls close on the
already-closed stop channel. -/
theorem claim8_close_not_idempotent (st : Stack)
    (h : st.stopChanClosed = false) :
    ∃ st', Stack.Close st = .ok st' ∧ st'.sockets = [] ∧
      Stack.Close st' = .error "panic: close of closed channel" := by
  refine ⟨{ st with stopChanClosed := true, sockets := [] }, ?_, rfl, rfl⟩
  simp [Stack.Close, h]

def stackOpen : Stack :=
  { stopChanClosed := false, listening := [443]
    sockets := [({ localAddr := "l", remoteAddr := "r" }, sockEst)] }

def stackOnceClosed : Stack :=
  { stopChanClosed := true, listening := [443], sockets := [] }

/-- C8 as stated is false: at this concrete stack the first Close
returns nil but the second Close panics instead of returning nil again. -/
theorem claim8_counterexample :
    Stack.Close stackOpen = .ok stackOnceClosed ∧
    Stack.Close stackOnceClosed = .error "panic: close of closed channel" :=
  ⟨rfl, rfl⟩

theorem claim8_witness :
    ∃ st', Stack.Close stackOpen = .ok st' ∧ st'.sockets = [] ∧
      Stack.Close st' = .error "panic: close of closed channel" :=
  claim8_close_not_idempotent stackOpen rfl

theorem socketsLookup_delete (m : List (AddrTuple × Socket))
    (t : AddrTuple) : socketsLookup (socketsDelete m t) t = none := by
  induction m with
  | nil => rfl
  | cons p ps ih =>
    unfold socketsDelete at ih ⊢
    rw [List.filter_cons]
    by_cases hp : (p.1 != t) = true
    · rw [if_pos hp]
      have hbeq : (p.1 == t) = false := by
        simpa [bne] using hp
      unfold socketsLookup at ih ⊢
      rw [List.find?_cons, hbeq]
      exact ih
    · rw [if_neg hp]
      exact ih

/-- C10: when the inner handshake of Stack.Connect fails, the socket
registered under the (localAddr, remoteAddr) tuple is unregistered
before the error is returned, so the tuple is absent from the socket
map. -/
theorem claim10_connect_unregisters (st : Stack)
    (localAddr remoteAddr : String) (initSeq : Nat)
    (events : List ConnIter) (e : String)
    (hfail : (Stack.Connect st localAddr remoteAddr initSeq events).2 =
      .error e) :
    socketsLookup
      (Stack.Connect st localAddr remoteAddr initSeq events).1.sockets
      { localAddr := localAddr, remoteAddr := remoteAddr } = none := by
  simp only [Stack.Connect] at hfail ⊢
  rcases hres : Socket.Connect
      { seq := u32 initSeq, ack := 0, lastAck := 0, state := .Idle
        closed := false } events with ⟨sockFinal, res, syn, t⟩
  rw [hres] at hfail
  cases res with
  | established => simp at hfail
  | notIdle => exact socketsLookup_delete _ _
  | closedDuringConnect => exact socketsLookup_delete _ _
  | timedOut => exact socketsLookup_delete _ _

theorem claim10_witness :
    (Stack.Connect stackOpen "10.0.0.1:443" "10.0.0.2:443" 5 []).2 =
      .error "connect failed" ∧
    socketsLookup
      (Stack.Connect stackOpen "10.0.0.1:443" "10.0.0.2:443" 5 []).1.sockets
      { localAddr := "10.0.0.1:443", remoteAddr := "10.0.0.2:443" } = none :=
  ⟨rfl, claim10_connect_unregisters stackOpen "10.0.0.1:443" "10.0.0.2:443"
    5 [] "connect failed" rfl⟩


/-- Shape of ParseTCPPacket on a successful IPv4 parse. -/
theorem ParseTCPPacket_v4 (buf : List Nat)
    (hv : byteAt buf 0 / 16 = 4)
    (hp : byteAt buf 9 = 6)
    (h2 : ¬ buf.length < 40) :
    ParseTCPPacket buf = some
      { srcIP := (buf.drop 12).take 4
        dstIP := (buf.drop 16).take 4
        srcPort := readU16 (buf.drop 20) 0
        dstPort := readU16 (buf.drop 20) 2
        seq := readU32 (buf.drop 20) 4
        ack := readU32 (buf.drop 20) 8
        flags := byteAt (buf.drop 20) 13
        window := readU16 (buf.drop 20) 14
        payload :=
          if byteAt (buf.drop 20) 12 / 16 * 4 < (buf.drop 20).length then
            (buf.drop 20).drop (byteAt (buf.drop 20) 12 / 16 * 4)
          else []
        isIPv6 := false } := by
  unfold ParseTCPPacket
  rw [if_neg (by simp only [IPv4HeaderLen]; omega)]
  simp only [IPv4HeaderLen, IPv6HeaderLen, TCPHeaderLen]
  rw [if_pos hv]
  simp only []
  rw [if_neg (by simp [hp]), if_neg (by omega)]

/-- Shape of ParseTCPPacket on a successful IPv6 parse. -/
theorem ParseTCPPacket_v6 (buf : List Nat)
    (hv : byteAt buf 0 / 16 = 6)
    (hp : byteAt buf 6 = 6)
    (h2 : ¬ buf.length < 60) :
    ParseTCPPacket buf = some
      { srcIP := (buf.drop 8).take 16
        dstIP := (buf.drop 24).take 16
        srcPort := readU16 (buf.drop 40) 0
        dstPort := readU16 (buf.drop 40) 2
        seq := readU32 (buf.drop 40) 4
        ack := readU32 (buf.drop 40) 8
        flags := byteAt (buf.drop 40) 13
        window := readU16 (buf.drop 40) 14
        payload :=
          if byteAt (buf.drop 40) 12 / 16 * 4 < (buf.drop 40).length then
            (buf.drop 40).drop (byteAt (buf.drop 40) 12 / 16 * 4)
          else []
        isIPv6 := true } := by
  have hv4 : ¬ (byteAt buf 0 / 16 = 4) := by omega
  unfold ParseTCPPacket
  rw [if_neg (by simp only [IPv4HeaderLen]; omega)]
  simp only [IPv4HeaderLen, IPv6HeaderLen, TCPHeaderLen]
  rw [if_neg hv4, if_pos hv, if_neg (by omega)]
  simp only []
  rw [if_neg (by simp [hp]), if_neg (by omega)]

theorem ParseTCPPacket_none_short (buf : List Nat)
    (h1 : buf.length < 20) : ParseTCPPacket buf = none := by
  unfold ParseTCPPacket
  rw [if_pos (by simp only [IPv4HeaderLen]; omega)]

theorem ParseTCPPacket_none_version (buf : List Nat)
    (h1 : ¬ buf.length < 20)
    (hv4 : ¬ byteAt buf 0 / 16 = 4) (hv6 : ¬ byteAt buf 0 / 16 = 6) :
    ParseTCPPacket buf = none := by
  unfold ParseTCPPacket
  rw [if_neg (by simp only [IPv4HeaderLen]; omega)]
  simp only [IPv4HeaderLen, IPv6HeaderLen, TCPHeaderLen]
  rw [if_neg hv4, if_neg hv6]

theorem ParseTCPPacket_none_v4_proto (buf : List Nat)
    (h1 : ¬ buf.length < 20)
    (hv : byteAt buf 0 / 16 = 4) (hp : ¬ byteAt buf 9 = 6) :
    ParseTCPPacket buf = none := by
  unfold ParseTCPPacket
  rw [if_neg (by simp only [IPv4HeaderLen]; omega)]
  simp only [IPv4HeaderLen, IPv6HeaderLen, TCPHeaderLen]
  rw [if_pos hv]
  simp only []
  rw [if_pos (by simpa using hp)]

theorem ParseTCPPacket_none_v4_len (buf : List Nat)
    (h1 : ¬ buf.length < 20)
    (hv : byteAt buf 0 / 16 = 4) (hp : byteAt buf 9 = 6)
    (h2 : buf.length < 40) :
    ParseTCPPacket buf = none := by
  unfold ParseTCPPacket
  rw [if_neg (by simp only [IPv4HeaderLen]; omega)]
  simp only [IPv4HeaderLen, IPv6HeaderLen, TCPHeaderLen]
  rw [if_pos hv]
  simp only [IPv4HeaderLen, TCPHeaderLen]
  rw [if_neg (by simp [hp]), if_pos (by omega)]

theorem ParseTCPPacket_none_v6_short (buf : List Nat)
    (h1 : ¬ buf.length < 20)
    (hv : byteAt buf 0 / 16 = 6) (h2 : buf.length < 40) :
    ParseTCPPacket buf = none := by
  have hv4 : ¬ (byteAt buf 0 / 16 = 4) := by omega
  unfold ParseTCPPacket
  rw [if_neg (by simp only [IPv4HeaderLen]; omega)]
  simp only [IPv4HeaderLen, IPv6HeaderLen, TCPHeaderLen]
  rw [if_neg hv4, if_pos hv]
  rw [if_pos (by omega)]

theorem ParseTCPPacket_none_v6_proto (buf : List Nat)
    (h1 : ¬ buf.length < 20)
    (hv : byteAt buf 0 / 16 = 6) (h2 : ¬ buf.length < 40)
    (hp : ¬ byteAt buf 6 = 6) :
    ParseTCPPacket buf = none := by
  have hv4 : ¬ (byteAt buf 0 / 16 = 4) := by omega
  unfold ParseTCPPacket
  rw [if_neg (by simp only [IPv4HeaderLen]; omega)]
  simp only [IPv4HeaderLen, IPv6HeaderLen, TCPHeaderLen]
  rw [if_neg hv4, if_pos hv]
  rw [if_neg (by omega)]
  simp only []
  rw [if_pos (by simpa using hp)]

theorem ParseTCPPacket_none_v6_len (buf : List Nat)
    (h1 : ¬ buf.length < 20)
    (hv : byteAt buf 0 / 16 = 6) (hp : byteAt buf 6 = 6)
    (h2 : ¬ buf.length < 40) (h3 : buf.length < 60) :
    ParseTCPPacket buf = none := by
  have hv4 : ¬ (byteAt buf 0 / 16 = 4) := by omega
  unfold ParseTCPPacket
  rw [if_neg (by simp only [IPv4HeaderLen]; omega)]
  simp only [IPv4HeaderLen, IPv6HeaderLen, TCPHeaderLen]
  rw [if_neg hv4, if_pos hv]
  rw [if_neg (by omega)]
  simp only []
  rw [if_neg (by simp [hp]), if_pos (by omega)]

/-- C9: ParseTCPPacket is total on arbitrary buffers: it returns none
exactly when the buffer is shorter than the IPv4 header, the IP version
is neither 4 nor 6, a version-6 buffer is shorter than the IPv6 header,
the protocol field is not TCP (6), or the buffer is shorter than the IP
header plus the 20-byte TCP header; otherwise it returns a parsed
packet, and whenever the data-offset field points at or past the end of
the TCP segment the payload is left empty rather than an error. -/
theorem claim9_parse_total (buf : List Nat) :
    (ParseTCPPacket buf = none ↔
      (buf.length < IPv4HeaderLen ∨
       (ipVersion buf ≠ 4 ∧ ipVersion buf ≠ 6) ∨
       (ipVersion buf = 6 ∧ buf.length < IPv6HeaderLen) ∨
       ipProto buf ≠ 6 ∨
       buf.length < ipHeaderLen buf + TCPHeaderLen)) ∧
    (∀ pkt, ParseTCPPacket buf = some pkt →
      (buf.drop (ipHeaderLen buf)).length ≤
        byteAt (buf.drop (ipHeaderLen buf)) 12 / 16 * 4 →
      pkt.payload = []) := by
  by_cases h1 : buf.length < 20
  · refine ⟨?_, ?_⟩
    · rw [ParseTCPPacket_none_short buf h1]
      exact iff_of_true rfl (Or.inl (by simpa [IPv4HeaderLen] using h1))
    · intro pkt hpkt
      rw [ParseTCPPacket_none_short buf h1] at hpkt
      cases hpkt
  · by_cases hv4 : byteAt buf 0 / 16 = 4
    · have hv4i : ipVersion buf = 4 := hv4
      have hhl : ipHeaderLen buf = IPv4HeaderLen := by
        simp only [ipHeaderLen]
        rw [if_pos hv4i]
      have hpr : ipProto buf = byteAt buf 9 := by
        simp only [ipProto]
        rw [if_pos hv4i]
      by_cases hp : byteAt buf 9 = 6
      · by_cases h2 : buf.length < 40
        · refine ⟨?_, ?_⟩
          · rw [ParseTCPPacket_none_v4_len buf h1 hv4 hp h2]
            refine iff_of_true rfl
              (Or.inr (Or.inr (Or.inr (Or.inr ?_))))
            rw [hhl]
            simp only [TCPHeaderLen, IPv4HeaderLen]
            omega
          · intro pkt hpkt
            rw [ParseTCPPacket_none_v4_len buf h1 hv4 hp h2] at hpkt
            cases hpkt
        · refine ⟨?_, ?_⟩
          · rw [ParseTCPPacket_v4 buf hv4 hp h2]
            refine iff_of_false (by simp) ?_
            intro hor
            rcases hor with h | ⟨ha, _⟩ | ⟨ha, _⟩ | h | h
            · exact h1 (by simpa [IPv4HeaderLen] using h)
            · exact ha hv4
            · have h6 : byteAt buf 0 / 16 = 6 := ha
              omega
            · exact h (hpr.trans hp)
            · rw [hhl] at h
              simp only [TCPHeaderLen, IPv4HeaderLen] at h
              omega
          · intro pkt hpkt hoff
            rw [ParseTCPPacket_v4 buf hv4 hp h2] at hpkt
            have hpe := Option.some.inj hpkt
            have hoff2 : (buf.drop 20).length ≤
                byteAt (buf.drop 20) 12 / 16 * 4 := by
              rw [hhl] at hoff
              simp only [IPv4HeaderLen] at hoff
              exact hoff
            rw [← hpe]
            dsimp only
            rw [if_neg (Nat.not_lt.mpr hoff2)]
      · refine ⟨?_, ?_⟩
        · rw [ParseTCPPacket_none_v4_proto buf h1 hv4 hp]
          refine iff_of_true rfl
            (Or.inr (Or.inr (Or.inr (Or.inl ?_))))
          rw [hpr]
          exact hp
        · intro pkt hpkt
          rw [ParseTCPPacket_none_v4_proto buf h1 hv4 hp] at hpkt
          cases hpkt
    · by_cases hv6 : byteAt buf 0 / 16 = 6
      · have hv4i : ¬ (ipVersion buf = 4) := hv4
        have hhl : ipHeaderLen buf = IPv6HeaderLen := by
          simp only [ipHeaderLen]
          rw [if_neg hv4i]
        have hpr : ipProto buf = byteAt buf 6 := by
          simp only [ipProto]
          rw [if_neg hv4i]
        by_cases h2 : buf.length < 40
        · refine ⟨?_, ?_⟩
          · rw [ParseTCPPacket_none_v6_short buf h1 hv6 h2]
            exact iff_of_true rfl (Or.inr (Or.inr (Or.inl
              ⟨hv6, by simpa [IPv6HeaderLen] using h2⟩)))
          · intro pkt hpkt
            rw [ParseTCPPacket_none_v6_short buf h1 hv6 h2] at hpkt
            cases hpkt
        · by_cases hp : byteAt buf 6 = 6
          · by_cases h3 : buf.length < 60
            · refine ⟨?_, ?_⟩
              · rw [ParseTCPPacket_none_v6_len buf h1 hv6 hp h2 h3]
                refine iff_of_true rfl
                  (Or.inr (Or.inr (Or.inr (Or.inr ?_))))
                rw [hhl]
                simp only [TCPHeaderLen, IPv6HeaderLen]
                omega
              · intro pkt hpkt
                rw [ParseTCPPacket_none_v6_len buf h1 hv6 hp h2 h3] at hpkt
                cases hpkt
            · refine ⟨?_, ?_⟩
              · rw [ParseTCPPacket_v6 buf hv6 hp h3]
                refine iff_of_false (by simp) ?_
                intro hor
                rcases hor with h | ⟨_, hb⟩ | ⟨_, hb⟩ | h | h
                · exact h1 (by simpa [IPv4HeaderLen] using h)
                · exact hb hv6
                · exact h2 (by simpa [IPv6HeaderLen] using hb)
                · exact h (hpr.trans hp)
                · rw [hhl] at h
                  simp only [TCPHeaderLen, IPv6HeaderLen] at h
                  omega
              · intro pkt hpkt hoff
                rw [ParseTCPPacket_v6 buf hv6 hp h3] at hpkt
                have hpe := Option.some.inj hpkt
                have hoff2 : (buf.drop 40).length ≤
                    byteAt (buf.drop 40) 12 / 16 * 4 := by
                  rw [hhl] at hoff
                  simp only [IPv6HeaderLen] at hoff
                  exact hoff
                rw [← hpe]
                dsimp only
                rw [if_neg (Nat.not_lt.mpr hoff2)]
          · refine ⟨?_, ?_⟩
            · rw [ParseTCPPacket_none_v6_proto buf h1 hv6 h2 hp]
              refine iff_of_true rfl
                (Or.inr (Or.inr (Or.inr (Or.inl ?_))))
              rw [hpr]
              exact hp
            · intro pkt hpkt
              rw [ParseTCPPacket_none_v6_proto buf h1 hv6 h2 hp] at hpkt
              cases hpkt
      · refine ⟨?_, ?_⟩
        · rw [ParseTCPPacket_none_version buf h1 hv4 hv6]
          exact iff_of_true rfl (Or.inr (Or.inl ⟨hv4, hv6⟩))
        · intro pkt hpkt
          rw [ParseTCPPacket_none_version buf h1 hv4 hv6] at hpkt
          cases hpkt

def bufShort : List Nat := List.replicate 10 0

def bufV4Odd : List Nat :=
  [69, 0, 0, 40, 0, 0, 0, 0, 64, 6, 0, 0, 10, 0, 0, 1, 10, 0, 0, 2] ++
  [0, 80, 1, 187, 0, 0, 0, 1, 0, 0, 0, 2, 240, 16, 255, 255, 0, 0, 0, 0]

def pktV4Odd : TCPPacket :=
  { srcIP := [10, 0, 0, 1]
    dstIP := [10, 0, 0, 2]
    srcPort := 80
    dstPort := 443
    seq := 1
    ack := 2
    flags := 16
    window := 65535
    payload := []
    isIPv6 := false }

theorem claim9_witness :
    ParseTCPPacket bufShort = none ∧
    ParseTCPPacket bufV4Odd = some pktV4Odd ∧
    pktV4Odd.payload = [] :=
  ⟨(claim9_parse_total bufShort).1.mpr (Or.inl (by decide)),
   by rfl,
   (claim9_parse_total bufV4Odd).2 pktV4Odd (by rfl) (by decide)⟩

end FakeTCP
